import Mathlib

/-!
Verification of the tax calculator (`tax_calculator.py`).

The source is embedded shallowly over exact rationals `ℚ`:
a bracket tier is a pair of a marginal rate and an upper bound, where
`none` models the `np.inf` sentinel of the Python data; the bracket walk
`calculate_tax_for_bracket` returns `Option` so that the Python
`KeyError` raised when the walk runs past the end of a schedule (or when
the schedule is empty) is the `none` case; `calculate_tax` returns
`Except TaxError` so that the two `ValueError`s and a propagated
`KeyError` are explicit values.  All functions are pure, exactly as the
source's are.
-/

/-- A bracket tier: a marginal `rate` and a `upper` bound; `none` models
the `np.inf` upper bound used by the Python data for the open top tier. -/
structure Tier where
  rate : ℚ
  upper : Option ℚ
  deriving DecidableEq, Repr

/-- The shipped 2025 federal schedule (`TAX_BRACKETS['FED']`). -/
def FED : List Tier :=
  [⟨0.10, some 11925⟩, ⟨0.12, some 48475⟩, ⟨0.22, some 103350⟩,
   ⟨0.24, some 197300⟩, ⟨0.32, some 250525⟩, ⟨0.35, some 626350⟩,
   ⟨0.37, none⟩]

/-- The shipped New York state schedule (`TAX_BRACKETS['NY']`). -/
def NY : List Tier :=
  [⟨0.04, some 8500⟩, ⟨0.045, some 11700⟩, ⟨0.0525, some 13900⟩,
   ⟨0.055, some 80650⟩, ⟨0.06, some 215400⟩, ⟨0.0685, some 1077550⟩,
   ⟨0.0965, some 5000000⟩, ⟨0.103, some 25000000⟩, ⟨0.109, none⟩]

/-- The shipped New York City schedule (`TAX_BRACKETS['NYC']`). -/
def NYC : List Tier :=
  [⟨0.03078, some 12000⟩, ⟨0.03762, some 25000⟩, ⟨0.03819, some 50000⟩,
   ⟨0.03876, none⟩]

/-- The shipped Social Security schedule (`TAX_BRACKETS['Soc Sec']`):
6.2% up to the 176100 wage base, 0% beyond. -/
def socSec : List Tier := [⟨0.062, some 176100⟩, ⟨0.0, none⟩]

/-- The shipped Medicare schedule (`TAX_BRACKETS['Med']`). -/
def med : List Tier := [⟨0.0145, none⟩]

/-- The shipped named schedule set `TAX_BRACKETS`, in the source's
insertion order. -/
def TAX_BRACKETS : List (String × List Tier) :=
  [("FED", FED), ("NY", NY), ("NYC", NYC), ("Soc Sec", socSec), ("Med", med)]

/-- The `while taxable_income > upper_bound` loop of
`calculate_tax_for_bracket`.  `t` is the tier currently loaded into
`upper_bound` / `tax_rate`, `rest` the tiers after it; `none` is the
`KeyError` path where `i` runs past the end of the schedule. -/
def bracketLoop (taxable_income : ℚ) (tax lower_bound : ℚ) (t : Tier) :
    List Tier → Option (ℚ × ℚ)
  | [] =>
    match t.upper with
    | none => some (tax + t.rate * (taxable_income - lower_bound), t.rate)
    | some ub =>
      if taxable_income > ub then none
      else some (tax + t.rate * (taxable_income - lower_bound), t.rate)
  | t2 :: rest2 =>
    match t.upper with
    | none => some (tax + t.rate * (taxable_income - lower_bound), t.rate)
    | some ub =>
      if taxable_income > ub then
        bracketLoop taxable_income (tax + t.rate * (ub - lower_bound)) ub t2 rest2
      else some (tax + t.rate * (taxable_income - lower_bound), t.rate)

/-- Embedding of `calculate_tax_for_bracket`: returns
`(total_tax, marginal_rate)`, or `none` on the `KeyError` paths (empty
schedule, or the loop running past the last tier). -/
def calculate_tax_for_bracket (taxable_income : ℚ) (tax_bracket : List Tier) :
    Option (ℚ × ℚ) :=
  match tax_bracket with
  | [] => none
  | t :: rest =>
    if taxable_income ≤ 0 then some (0, t.rate)
    else bracketLoop taxable_income 0 0 t rest

/-- Walk of the schedule as the spec words it, for the refinement claim:
maintain a running lower bound and accumulated tax; for each tier in
order, stop at the first tier whose upper bound is `≥ taxableIncome`
(an unbounded tier always stops), taxing the remainder at that tier's
rate; otherwise add `rate × (upperBound − lowerBound)` and advance. -/
def specTax (taxable_income : ℚ) (acc lower_bound : ℚ) :
    List Tier → Option (ℚ × ℚ)
  | [] => none
  | t :: rest =>
    match t.upper with
    | none => some (acc + t.rate * (taxable_income - lower_bound), t.rate)
    | some ub =>
      if ub ≥ taxable_income then
        some (acc + t.rate * (taxable_income - lower_bound), t.rate)
      else specTax taxable_income (acc + t.rate * (ub - lower_bound)) ub rest

/-- The spec's walk started from lower bound 0 and accumulated tax 0. -/
def specWalk (taxable_income : ℚ) (schedule : List Tier) : Option (ℚ × ℚ) :=
  specTax taxable_income 0 0 schedule

/-- One column of the summary before the final integer truncation of the
`Tax` row: the four values `[tax, nominal_rate, marginal_rate,
effective_rate]` recorded per tax type. -/
structure Row where
  tax : ℚ
  nominalRate : ℚ
  marginalRate : ℚ
  effectiveRate : ℚ
  deriving DecidableEq, Repr

/-- One row of the returned summary after `summary['Tax'] =
summary['Tax'].astype(int)`: the tax amount truncated to an integer, the
three rates kept fractional. -/
structure FinalRow where
  tax : ℤ
  nominalRate : ℚ
  marginalRate : ℚ
  effectiveRate : ℚ
  deriving DecidableEq, Repr

/-- The error outcomes of `calculate_tax`: the two `ValueError`s raised
by input validation, and a `KeyError` propagated from
`calculate_tax_for_bracket` on a malformed schedule. -/
inductive TaxError where
  | invalidInput (msg : String)
  | keyError
  deriving DecidableEq, Repr

/-- The body of the `for key, bracket in tax_brackets.items()` loop for
one schedule: run the bracket engine and record the column, guarding the
two divisions exactly as the source does. -/
def computeRow (taxable_income income : ℚ) (bracket : List Tier) : Option Row :=
  match calculate_tax_for_bracket taxable_income bracket with
  | none => none
  | some (tax, marginal_rate) =>
    some { tax := tax
           nominalRate := if taxable_income > 0 then tax / taxable_income else 0
           marginalRate := marginal_rate
           effectiveRate := if income > 0 then tax / income else 0 }

/-- All per-type columns, in the schedule set's order; `none` if any
schedule makes the bracket engine raise. -/
def rawRows (taxable_income income : ℚ) :
    List (String × List Tier) → Option (List (String × Row))
  | [] => some []
  | (key, bracket) :: rest =>
    match computeRow taxable_income income bracket,
          rawRows taxable_income income rest with
    | some r, some rs => some ((key, r) :: rs)
    | _, _ => none

/-- The `summary['ALL'] = summary.sum(axis=1)` aggregate: column-wise
sums of the four fields across the per-type columns. -/
def sumRow (rows : List Row) : Row :=
  rows.foldr
    (fun r acc =>
      ⟨r.tax + acc.tax, r.nominalRate + acc.nominalRate,
       r.marginalRate + acc.marginalRate, r.effectiveRate + acc.effectiveRate⟩)
    ⟨0, 0, 0, 0⟩

/-- Truncation toward zero of a rational to an integer, the behaviour of
`.astype(int)` on the `Tax` column. -/
def truncToInt (q : ℚ) : ℤ := Int.tdiv q.num (q.den : ℤ)

/-- Apply the final `astype(int)` truncation to one row: the tax amount
becomes an integer, the rates are unchanged. -/
def finalizeRow (r : Row) : FinalRow :=
  ⟨truncToInt r.tax, r.nominalRate, r.marginalRate, r.effectiveRate⟩

/-- Assemble the returned summary from a taxable base: the per-type rows
in order, then the aggregate `ALL` row, each with its `Tax` field
truncated (the `ALL` sum is taken over the untruncated amounts). -/
def mkRows (taxable_income income : ℚ) (tax_brackets : List (String × List Tier)) :
    Option (List (String × FinalRow)) :=
  (rawRows taxable_income income tax_brackets).map fun raw =>
    (raw.map fun p => (p.1, finalizeRow p.2)) ++
      [("ALL", finalizeRow (sumRow (raw.map Prod.snd)))]

/-- Embedding of `calculate_tax`: validate the inputs, compute the
single taxable base `max (income - deduction) 0`, and assemble the
summary over it. -/
def calculate_tax (income deduction : ℚ)
    (tax_brackets : List (String × List Tier)) :
    Except TaxError (List (String × FinalRow)) :=
  if income < 0 then Except.error (TaxError.invalidInput "Income cannot be negative")
  else if deduction < 0 then Except.error (TaxError.invalidInput "Deduction cannot be negative")
  else
    match mkRows (max (income - deduction) 0) income tax_brackets with
    | none => Except.error TaxError.keyError
    | some rows => Except.ok rows

/-- The schedule is nonempty and its final tier has an unbounded upper
bound (the `np.inf` sentinel): the spec's precondition on schedules. -/
def lastUnboundedB : List Tier → Bool
  | [] => false
  | [t] => t.upper.isNone
  | _ :: t2 :: rest => lastUnboundedB (t2 :: rest)

/-- Every rate of the schedule is non-negative. -/
def ratesNonnegB : List Tier → Bool
  | [] => true
  | t :: rest => decide (0 ≤ t.rate) && ratesNonnegB rest

/-- Every rate of the schedule is at most one. -/
def ratesLeOneB : List Tier → Bool
  | [] => true
  | t :: rest => decide (t.rate ≤ 1) && ratesLeOneB rest

/-- The finite upper bounds strictly increase, starting strictly above
`lb` (tiers after an unbounded one are unreachable and unconstrained). -/
def chainB (lb : ℚ) : List Tier → Bool
  | [] => true
  | t :: rest =>
    match t.upper with
    | none => true
    | some ub => decide (lb < ub) && chainB ub rest

/-! Unfolding equations for the loop, by tier shape. -/

theorem bracketLoop_nil_none (x tax lower r : ℚ) :
    bracketLoop x tax lower ⟨r, none⟩ [] = some (tax + r * (x - lower), r) := rfl

theorem bracketLoop_nil_some (x tax lower r ub : ℚ) :
    bracketLoop x tax lower ⟨r, some ub⟩ [] =
      if x > ub then none else some (tax + r * (x - lower), r) := rfl

theorem bracketLoop_cons_none (x tax lower r : ℚ) (t2 : Tier) (rest2 : List Tier) :
    bracketLoop x tax lower ⟨r, none⟩ (t2 :: rest2) =
      some (tax + r * (x - lower), r) := rfl

theorem bracketLoop_cons_some (x tax lower r ub : ℚ) (t2 : Tier) (rest2 : List Tier) :
    bracketLoop x tax lower ⟨r, some ub⟩ (t2 :: rest2) =
      if x > ub then bracketLoop x (tax + r * (ub - lower)) ub t2 rest2
      else some (tax + r * (x - lower), r) := rfl

theorem specTax_cons_none (x acc lower r : ℚ) (rest : List Tier) :
    specTax x acc lower (⟨r, none⟩ :: rest) =
      some (acc + r * (x - lower), r) := rfl

theorem specTax_cons_some (x acc lower r ub : ℚ) (rest : List Tier) :
    specTax x acc lower (⟨r, some ub⟩ :: rest) =
      if ub ≥ x then some (acc + r * (x - lower), r)
      else specTax x (acc + r * (ub - lower)) ub rest := rfl

/-- The accumulated tax is carried additively through the loop. -/
theorem bracketLoop_acc (x : ℚ) : ∀ (rest : List Tier) (t : Tier) (a b lower : ℚ),
    bracketLoop x (a + b) lower t rest =
      (bracketLoop x b lower t rest).map fun p => (a + p.1, p.2)
  | [], ⟨r, none⟩, a, b, lower => by
    simp [bracketLoop_nil_none, add_assoc]
  | [], ⟨r, some ub⟩, a, b, lower => by
    by_cases hx : x > ub
    · simp [bracketLoop_nil_some, hx]
    · simp [bracketLoop_nil_some, hx, add_assoc]
  | t2 :: rest2, ⟨r, none⟩, a, b, lower => by
    simp [bracketLoop_cons_none, add_assoc]
  | t2 :: rest2, ⟨r, some ub⟩, a, b, lower => by
    by_cases hx : x > ub
    · rw [bracketLoop_cons_some, bracketLoop_cons_some, if_pos hx, if_pos hx, add_assoc]
      exact bracketLoop_acc x rest2 t2 a (b + r * (ub - lower)) ub
    · simp [bracketLoop_cons_some, hx, add_assoc]

/-- With an unbounded final tier the loop never reaches the
out-of-range branch: it always returns a value. -/
theorem bracketLoop_isSome (x : ℚ) : ∀ (rest : List Tier) (t : Tier) (tax lower : ℚ),
    lastUnboundedB (t :: rest) = true →
    ∃ p, bracketLoop x tax lower t rest = some p
  | [], ⟨r, none⟩, tax, lower, _ => ⟨_, bracketLoop_nil_none x tax lower r⟩
  | [], ⟨r, some ub⟩, tax, lower, h => by
    simp [lastUnboundedB] at h
  | t2 :: rest2, ⟨r, none⟩, tax, lower, _ =>
    ⟨_, bracketLoop_cons_none x tax lower r t2 rest2⟩
  | t2 :: rest2, ⟨r, some ub⟩, tax, lower, h => by
    have h2 : lastUnboundedB (t2 :: rest2) = true := h
    by_cases hx : x > ub
    · rw [bracketLoop_cons_some, if_pos hx]
      exact bracketLoop_isSome x rest2 t2 (tax + r * (ub - lower)) ub h2
    · exact ⟨_, by rw [bracketLoop_cons_some, if_neg hx]⟩

/-- The loop of the source computes exactly the walk described by the
spec: same stopping tier, same accumulated tax, same marginal rate. -/
theorem bracketLoop_eq_specTax (x : ℚ) : ∀ (rest : List Tier) (t : Tier) (tax lower : ℚ),
    bracketLoop x tax lower t rest = specTax x tax lower (t :: rest)
  | [], ⟨r, none⟩, tax, lower => rfl
  | [], ⟨r, some ub⟩, tax, lower => by
    rcases le_or_lt x ub with hle | hlt
    · rw [bracketLoop_nil_some, specTax_cons_some, if_neg (not_lt.mpr hle), if_pos hle]
    · rw [bracketLoop_nil_some, specTax_cons_some, if_pos hlt, if_neg (not_le.mpr hlt)]
      rfl
  | t2 :: rest2, ⟨r, none⟩, tax, lower => rfl
  | t2 :: rest2, ⟨r, some ub⟩, tax, lower => by
    rcases le_or_lt x ub with hle | hlt
    · rw [bracketLoop_cons_some, specTax_cons_some, if_neg (not_lt.mpr hle), if_pos hle]
    · rw [bracketLoop_cons_some, specTax_cons_some, if_pos hlt, if_neg (not_le.mpr hlt)]
      exact bracketLoop_eq_specTax x rest2 t2 (tax + r * (ub - lower)) ub

/-- With non-negative rates and increasing bounds, the loop never
produces a negative tax. -/
theorem bracketLoop_nonneg (x : ℚ) : ∀ (rest : List Tier) (t : Tier) (lower : ℚ)
    (p : ℚ × ℚ), ratesNonnegB (t :: rest) = true → chainB lower (t :: rest) = true →
    lower ≤ x → bracketLoop x 0 lower t rest = some p → 0 ≤ p.1
  | [], ⟨r, none⟩, lower, p, hr, _, hlx, h => by
    simp only [ratesNonnegB, Bool.and_eq_true, decide_eq_true_eq] at hr
    rw [bracketLoop_nil_none] at h
    obtain rfl := Option.some.inj h
    simpa using mul_nonneg hr.1 (sub_nonneg.mpr hlx)
  | [], ⟨r, some ub⟩, lower, p, hr, _, hlx, h => by
    simp only [ratesNonnegB, Bool.and_eq_true, decide_eq_true_eq] at hr
    rw [bracketLoop_nil_some] at h
    by_cases hx : x > ub
    · rw [if_pos hx] at h
      exact absurd h (by simp)
    · rw [if_neg hx] at h
      obtain rfl := Option.some.inj h
      simpa using mul_nonneg hr.1 (sub_nonneg.mpr hlx)
  | t2 :: rest2, ⟨r, none⟩, lower, p, hr, _, hlx, h => by
    simp only [ratesNonnegB, Bool.and_eq_true, decide_eq_true_eq] at hr
    rw [bracketLoop_cons_none] at h
    obtain rfl := Option.some.inj h
    simpa using mul_nonneg hr.1 (sub_nonneg.mpr hlx)
  | t2 :: rest2, ⟨r, some ub⟩, lower, p, hr, hc, hlx, h => by
    rw [ratesNonnegB] at hr
    simp only [Bool.and_eq_true, decide_eq_true_eq] at hr
    rw [chainB] at hc
    simp only [Bool.and_eq_true, decide_eq_true_eq] at hc
    by_cases hx : x > ub
    · rw [bracketLoop_cons_some, if_pos hx, zero_add, ← add_zero (r * (ub - lower)),
        bracketLoop_acc] at h
      obtain ⟨q, hq, hpq⟩ := Option.map_eq_some'.mp h
      have hq0 : 0 ≤ q.1 :=
        bracketLoop_nonneg x rest2 t2 ub q hr.2 hc.2 (le_of_lt hx) hq
      have hA : 0 ≤ r * (ub - lower) :=
        mul_nonneg hr.1 (sub_nonneg.mpr (le_of_lt hc.1))
      rw [← hpq]
      simpa using add_nonneg hA hq0
    · rw [bracketLoop_cons_some, if_neg hx] at h
      obtain rfl := Option.some.inj h
      simpa using mul_nonneg hr.1 (sub_nonneg.mpr hlx)

/-- With rates at most one and increasing bounds, the tax accumulated by
the loop from lower bound `lower` is at most `x - lower`. -/
theorem bracketLoop_le (x : ℚ) : ∀ (rest : List Tier) (t : Tier) (lower : ℚ)
    (p : ℚ × ℚ), ratesLeOneB (t :: rest) = true → chainB lower (t :: rest) = true →
    lower ≤ x → bracketLoop x 0 lower t rest = some p → p.1 ≤ x - lower
  | [], ⟨r, none⟩, lower, p, hr, _, hlx, h => by
    simp only [ratesLeOneB, Bool.and_eq_true, decide_eq_true_eq] at hr
    rw [bracketLoop_nil_none] at h
    obtain rfl := Option.some.inj h
    simpa using mul_le_of_le_one_left (sub_nonneg.mpr hlx) hr.1
  | [], ⟨r, some ub⟩, lower, p, hr, _, hlx, h => by
    simp only [ratesLeOneB, Bool.and_eq_true, decide_eq_true_eq] at hr
    rw [bracketLoop_nil_some] at h
    by_cases hx : x > ub
    · rw [if_pos hx] at h
      exact absurd h (by simp)
    · rw [if_neg hx] at h
      obtain rfl := Option.some.inj h
      simpa using mul_le_of_le_one_left (sub_nonneg.mpr hlx) hr.1
  | t2 :: rest2, ⟨r, none⟩, lower, p, hr, _, hlx, h => by
    simp only [ratesLeOneB, Bool.and_eq_true, decide_eq_true_eq] at hr
    rw [bracketLoop_cons_none] at h
    obtain rfl := Option.some.inj h
    simpa using mul_le_of_le_one_left (sub_nonneg.mpr hlx) hr.1
  | t2 :: rest2, ⟨r, some ub⟩, lower, p, hr, hc, hlx, h => by
    rw [ratesLeOneB] at hr
    simp only [Bool.and_eq_true, decide_eq_true_eq] at hr
    rw [chainB] at hc
    simp only [Bool.and_eq_true, decide_eq_true_eq] at hc
    by_cases hx : x > ub
    · rw [bracketLoop_cons_some, if_pos hx, zero_add, ← add_zero (r * (ub - lower)),
        bracketLoop_acc] at h
      obtain ⟨q, hq, hpq⟩ := Option.map_eq_some'.mp h
      have hq1 : q.1 ≤ x - ub :=
        bracketLoop_le x rest2 t2 ub q hr.2 hc.2 (le_of_lt hx) hq
      have hA : r * (ub - lower) ≤ ub - lower :=
        mul_le_of_le_one_left (sub_nonneg.mpr (le_of_lt hc.1)) hr.1
      rw [← hpq]
      simp only []
      linarith
    · rw [bracketLoop_cons_some, if_neg hx] at h
      obtain rfl := Option.some.inj h
      simpa using mul_le_of_le_one_left (sub_nonneg.mpr hlx) hr.1

/-- The loop is monotone in the taxable income: with non-negative rates
and increasing bounds, a larger income accumulates at least as much tax. -/
theorem bracketLoop_mono (x y : ℚ) : ∀ (rest : List Tier) (t : Tier) (lower : ℚ)
    (px py : ℚ × ℚ), ratesNonnegB (t :: rest) = true →
    chainB lower (t :: rest) = true → x ≤ y →
    bracketLoop x 0 lower t rest = some px →
    bracketLoop y 0 lower t rest = some py → px.1 ≤ py.1
  | [], ⟨r, none⟩, lower, px, py, hr, _, hxy, hpx, hpy => by
    simp only [ratesNonnegB, Bool.and_eq_true, decide_eq_true_eq] at hr
    rw [bracketLoop_nil_none] at hpx hpy
    obtain rfl := Option.some.inj hpx
    obtain rfl := Option.some.inj hpy
    simpa using mul_le_mul_of_nonneg_left (sub_le_sub_right hxy lower) hr.1
  | [], ⟨r, some ub⟩, lower, px, py, hr, _, hxy, hpx, hpy => by
    simp only [ratesNonnegB, Bool.and_eq_true, decide_eq_true_eq] at hr
    rw [bracketLoop_nil_some] at hpx hpy
    by_cases hx : x > ub
    · rw [if_pos hx] at hpx
      exact absurd hpx (by simp)
    · by_cases hy : y > ub
      · rw [if_pos hy] at hpy
        exact absurd hpy (by simp)
      · rw [if_neg hx] at hpx
        rw [if_neg hy] at hpy
        obtain rfl := Option.some.inj hpx
        obtain rfl := Option.some.inj hpy
        simpa using mul_le_mul_of_nonneg_left (sub_le_sub_right hxy lower) hr.1
  | t2 :: rest2, ⟨r, none⟩, lower, px, py, hr, _, hxy, hpx, hpy => by
    simp only [ratesNonnegB, Bool.and_eq_true, decide_eq_true_eq] at hr
    rw [bracketLoop_cons_none] at hpx hpy
    obtain rfl := Option.some.inj hpx
    obtain rfl := Option.some.inj hpy
    simpa using mul_le_mul_of_nonneg_left (sub_le_sub_right hxy lower) hr.1
  | t2 :: rest2, ⟨r, some ub⟩, lower, px, py, hr, hc, hxy, hpx, hpy => by
    rw [ratesNonnegB] at hr
    simp only [Bool.and_eq_true, decide_eq_true_eq] at hr
    rw [chainB] at hc
    simp only [Bool.and_eq_true, decide_eq_true_eq] at hc
    by_cases hx : x > ub
    · have hy : y > ub := lt_of_lt_of_le hx hxy
      rw [bracketLoop_cons_some, if_pos hx, zero_add, ← add_zero (r * (ub - lower)),
        bracketLoop_acc] at hpx
      rw [bracketLoop_cons_some, if_pos hy, zero_add, ← add_zero (r * (ub - lower)),
        bracketLoop_acc] at hpy
      obtain ⟨qx, hqx, hpqx⟩ := Option.map_eq_some'.mp hpx
      obtain ⟨qy, hqy, hpqy⟩ := Option.map_eq_some'.mp hpy
      have hq : qx.1 ≤ qy.1 :=
        bracketLoop_mono x y rest2 t2 ub qx qy hr.2 hc.2 hxy hqx hqy
      rw [← hpqx, ← hpqy]
      simpa using hq
    · rw [bracketLoop_cons_some, if_neg hx] at hpx
      obtain rfl := Option.some.inj hpx
      by_cases hy : y > ub
      · rw [bracketLoop_cons_some, if_pos hy, zero_add, ← add_zero (r * (ub - lower)),
          bracketLoop_acc] at hpy
        obtain ⟨qy, hqy, hpqy⟩ := Option.map_eq_some'.mp hpy
        have hqy0 : 0 ≤ qy.1 :=
          bracketLoop_nonneg y rest2 t2 ub qy hr.2 hc.2 (le_of_lt hy) hqy
        have hA : r * (x - lower) ≤ r * (ub - lower) :=
          mul_le_mul_of_nonneg_left (sub_le_sub_right (not_lt.mp hx) lower) hr.1
        rw [← hpqy]
        simp only [zero_add]
        linarith
      · rw [bracketLoop_cons_some, if_neg hy] at hpy
        obtain rfl := Option.some.inj hpy
        simpa using mul_le_mul_of_nonneg_left (sub_le_sub_right hxy lower) hr.1

/-! Lemmas about the bracket engine's wrapper and the aggregator. -/

/-- With a nonempty schedule whose final tier is unbounded, the bracket
engine always returns a value: no `KeyError` path is reachable. -/
theorem calculate_tax_for_bracket_isSome (x : ℚ) (s : List Tier)
    (h : lastUnboundedB s = true) : ∃ p, calculate_tax_for_bracket x s = some p := by
  cases s with
  | nil => exact absurd h (by simp [lastUnboundedB])
  | cons t rest =>
    by_cases hx : x ≤ 0
    · exact ⟨(0, t.rate), by rw [calculate_tax_for_bracket, if_pos hx]⟩
    · obtain ⟨p, hp⟩ := bracketLoop_isSome x rest t 0 0 h
      exact ⟨p, by rw [calculate_tax_for_bracket, if_neg hx]; exact hp⟩

/-- The tax returned by the bracket engine is non-negative. -/
theorem calculate_tax_for_bracket_nonneg (x : ℚ) (s : List Tier) (p : ℚ × ℚ)
    (hr : ratesNonnegB s = true) (hc : chainB 0 s = true)
    (h : calculate_tax_for_bracket x s = some p) : 0 ≤ p.1 := by
  cases s with
  | nil => exact absurd h (by rw [calculate_tax_for_bracket]; simp)
  | cons t rest =>
    rw [calculate_tax_for_bracket] at h
    by_cases hx : x ≤ 0
    · rw [if_pos hx] at h
      obtain rfl := Option.some.inj h
      exact le_refl 0
    · rw [if_neg hx] at h
      exact bracketLoop_nonneg x rest t 0 p hr hc (le_of_lt (not_le.mp hx)) h

/-- With rates at most one, the tax returned by the bracket engine is at
most the (clamped) taxable income. -/
theorem calculate_tax_for_bracket_le (x : ℚ) (s : List Tier) (p : ℚ × ℚ)
    (hr : ratesLeOneB s = true) (hc : chainB 0 s = true)
    (h : calculate_tax_for_bracket x s = some p) : p.1 ≤ max x 0 := by
  cases s with
  | nil => exact absurd h (by rw [calculate_tax_for_bracket]; simp)
  | cons t rest =>
    rw [calculate_tax_for_bracket] at h
    by_cases hx : x ≤ 0
    · rw [if_pos hx] at h
      obtain rfl := Option.some.inj h
      exact le_max_right x 0
    · rw [if_neg hx] at h
      have := bracketLoop_le x rest t 0 p hr hc (le_of_lt (not_le.mp hx)) h
      calc p.1 ≤ x - 0 := this
        _ ≤ max x 0 := by simp

/-- The bracket engine's tax is monotone in the taxable income. -/
theorem calculate_tax_for_bracket_mono (s : List Tier) (x y : ℚ) (px py : ℚ × ℚ)
    (hr : ratesNonnegB s = true) (hc : chainB 0 s = true) (hxy : x ≤ y)
    (hx : calculate_tax_for_bracket x s = some px)
    (hy : calculate_tax_for_bracket y s = some py) : px.1 ≤ py.1 := by
  cases s with
  | nil => exact absurd hx (by rw [calculate_tax_for_bracket]; simp)
  | cons t rest =>
    by_cases hx0 : x ≤ 0
    · rw [calculate_tax_for_bracket, if_pos hx0] at hx
      obtain rfl := Option.some.inj hx
      exact calculate_tax_for_bracket_nonneg y (t :: rest) py hr hc hy
    · have hy0 : ¬ y ≤ 0 := fun h => hx0 (le_trans hxy h)
      rw [calculate_tax_for_bracket, if_neg hx0] at hx
      rw [calculate_tax_for_bracket, if_neg hy0] at hy
      exact bracketLoop_mono x y rest t 0 px py hr hc hxy hx hy

/-- If every schedule in the set is nonempty with an unbounded final
tier, every per-type column is produced. -/
theorem rawRows_isSome (taxable income : ℚ) : ∀ (schedules : List (String × List Tier)),
    (∀ p ∈ schedules, lastUnboundedB p.2 = true) →
    ∃ raw, rawRows taxable income schedules = some raw
  | [], _ => ⟨[], rfl⟩
  | (key, bracket) :: rest, h => by
    obtain ⟨⟨tax, mr⟩, hp⟩ :=
      calculate_tax_for_bracket_isSome taxable bracket (h _ (List.mem_cons_self _ _))
    obtain ⟨raws, hraws⟩ :=
      rawRows_isSome taxable income rest (fun p hp => h p (List.mem_cons_of_mem _ hp))
    have heq : rawRows taxable income ((key, bracket) :: rest) =
        some ((key,
          { tax := tax
            nominalRate := if taxable > 0 then tax / taxable else 0
            marginalRate := mr
            effectiveRate := if income > 0 then tax / income else 0 }) :: raws) := by
      rw [rawRows, computeRow, hp, hraws]
    exact ⟨_, heq⟩

/-- Every produced column comes from running the engine on the
corresponding schedule of the set, at the same taxable income. -/
theorem rawRows_mem (taxable income : ℚ) : ∀ (schedules : List (String × List Tier))
    (raw : List (String × Row)), rawRows taxable income schedules = some raw →
    ∀ q ∈ raw, ∃ p, p ∈ schedules ∧ computeRow taxable income p.2 = some q.2
  | [], raw, h, q, hq => by
    rw [rawRows] at h
    obtain rfl := Option.some.inj h
    exact absurd hq (List.not_mem_nil q)
  | (key, bracket) :: rest, raw, h, q, hq => by
    rw [rawRows] at h
    cases hcr : computeRow taxable income bracket with
    | none => rw [hcr] at h; exact absurd h (by simp)
    | some r =>
      cases hrr : rawRows taxable income rest with
      | none => rw [hcr, hrr] at h; exact absurd h (by simp)
      | some rs =>
        rw [hcr, hrr] at h
        obtain rfl := Option.some.inj h
        rcases List.mem_cons.mp hq with hq1 | hq2
        · exact ⟨(key, bracket), List.mem_cons_self _ _, by rw [hq1]; exact hcr⟩
        · obtain ⟨p, hp1, hp2⟩ := rawRows_mem taxable income rest rs hrr q hq2
          exact ⟨p, List.mem_cons_of_mem _ hp1, hp2⟩

/-- At taxable income zero, every column records zero tax and zero
nominal and effective rates. -/
theorem computeRow_zero (income : ℚ) (b : List Tier) (r : Row)
    (h : computeRow 0 income b = some r) :
    r.tax = 0 ∧ r.nominalRate = 0 ∧ r.effectiveRate = 0 := by
  cases b with
  | nil => exact absurd h (by rw [computeRow, calculate_tax_for_bracket]; simp)
  | cons t rest =>
    rw [computeRow, calculate_tax_for_bracket, if_pos (le_refl (0 : ℚ))] at h
    obtain rfl := Option.some.inj h
    refine ⟨rfl, by norm_num, ?_⟩
    by_cases hi : income > 0 <;> simp [hi]

/-- The `ALL` tax field is the sum of the per-type tax amounts. -/
theorem sumRow_tax : ∀ rows : List Row, (sumRow rows).tax = (rows.map Row.tax).sum
  | [] => rfl
  | r :: rs => by
    simp only [sumRow, List.foldr_cons, List.map_cons, List.sum_cons]
    rw [← sumRow_tax rs]
    rfl

/-- The `ALL` nominal rate field is the sum of the per-type ones. -/
theorem sumRow_nominal : ∀ rows : List Row,
    (sumRow rows).nominalRate = (rows.map Row.nominalRate).sum
  | [] => rfl
  | r :: rs => by
    simp only [sumRow, List.foldr_cons, List.map_cons, List.sum_cons]
    rw [← sumRow_nominal rs]
    rfl

/-- The `ALL` marginal rate field is the sum of the per-type ones. -/
theorem sumRow_marginal : ∀ rows : List Row,
    (sumRow rows).marginalRate = (rows.map Row.marginalRate).sum
  | [] => rfl
  | r :: rs => by
    simp only [sumRow, List.foldr_cons, List.map_cons, List.sum_cons]
    rw [← sumRow_marginal rs]
    rfl

/-- The `ALL` effective rate field is the sum of the per-type ones. -/
theorem sumRow_effective : ∀ rows : List Row,
    (sumRow rows).effectiveRate = (rows.map Row.effectiveRate).sum
  | [] => rfl
  | r :: rs => by
    simp only [sumRow, List.foldr_cons, List.map_cons, List.sum_cons]
    rw [← sumRow_effective rs]
    rfl

theorem truncToInt_zero : truncToInt 0 = 0 := rfl

/-- A successful `calculate_tax` call means both inputs passed
validation and the summary was assembled over the single taxable base
`max (income - deduction) 0`. -/
theorem calculate_tax_ok (income deduction : ℚ)
    (schedules : List (String × List Tier)) (rows : List (String × FinalRow))
    (h : calculate_tax income deduction schedules = Except.ok rows) :
    ¬ income < 0 ∧ ¬ deduction < 0 ∧
      mkRows (max (income - deduction) 0) income schedules = some rows := by
  by_cases h1 : income < 0
  · rw [calculate_tax, if_pos h1] at h
    exact absurd h (by simp)
  · by_cases h2 : deduction < 0
    · rw [calculate_tax, if_neg h1, if_pos h2] at h
      exact absurd h (by simp)
    · rw [calculate_tax, if_neg h1, if_neg h2] at h
      cases hmk : mkRows (max (income - deduction) 0) income schedules with
      | none => rw [hmk] at h; exact absurd h (by simp)
      | some rows2 =>
        rw [hmk] at h
        obtain rfl := Except.ok.inj h
        exact ⟨h1, h2, rfl⟩

/-- A successful column is the engine's pair with the two division
guards applied, exactly as the loop body records it. -/
theorem computeRow_some (taxable income : ℚ) (b : List Tier) (r : Row)
    (h : computeRow taxable income b = some r) :
    calculate_tax_for_bracket taxable b = some (r.tax, r.marginalRate) ∧
    r.nominalRate = (if taxable > 0 then r.tax / taxable else 0) ∧
    r.effectiveRate = (if income > 0 then r.tax / income else 0) := by
  cases hcb : calculate_tax_for_bracket taxable b with
  | none => rw [computeRow, hcb] at h; exact absurd h (by simp)
  | some pr =>
    obtain ⟨tax, mr⟩ := pr
    rw [computeRow, hcb] at h
    obtain rfl := Option.some.inj h
    exact ⟨rfl, rfl, rfl⟩

/-- A successful summary is the finalized per-type columns followed by
the finalized column-wise sum row. -/
theorem mkRows_some (taxable income : ℚ) (schedules : List (String × List Tier))
    (rows : List (String × FinalRow))
    (h : mkRows taxable income schedules = some rows) :
    ∃ raw, rawRows taxable income schedules = some raw ∧
      rows = (raw.map fun p => (p.1, finalizeRow p.2)) ++
        [("ALL", finalizeRow (sumRow (raw.map Prod.snd)))] := by
  cases hr : rawRows taxable income schedules with
  | none => rw [mkRows, hr] at h; exact absurd h (by simp)
  | some raw =>
    rw [mkRows, hr, Option.map_some'] at h
    obtain rfl := Option.some.inj h
    exact ⟨raw, rfl, rfl⟩

/-! The claims. -/

/-- C1: for every schedule whose final tier is unbounded and every
taxable income `> 0`, the engine returns exactly the tax and marginal
rate of the spec's tier walk (add `rate × (upperBound − lowerBound)` for
each tier strictly exceeded, stop at the first tier whose upper bound is
`≥` the income, tax the remainder there and report that tier's rate);
in particular on the FED schedule `computeTax 11925 = (1192.5, 0.10)`. -/
theorem c1_engine_is_spec_walk :
    (∀ (s : List Tier) (x : ℚ), lastUnboundedB s = true → 0 < x →
      ∃ p, calculate_tax_for_bracket x s = some p ∧ specWalk x s = some p) ∧
    calculate_tax_for_bracket 11925 FED = some (1192.5, 0.10) := by
  constructor
  · intro s x hlast hx
    obtain ⟨p, hp⟩ := calculate_tax_for_bracket_isSome x s hlast
    refine ⟨p, hp, ?_⟩
    cases s with
    | nil => exact absurd hlast (by simp [lastUnboundedB])
    | cons t rest =>
      rw [calculate_tax_for_bracket, if_neg (not_le.mpr hx)] at hp
      rw [specWalk, ← bracketLoop_eq_specTax]
      exact hp
  · norm_num [calculate_tax_for_bracket, bracketLoop, FED]

/-- C1 witness: the walk agreement applied to the FED schedule at
income 20000. -/
theorem c1_engine_is_spec_walk_witness :
    ∃ p, calculate_tax_for_bracket 20000 FED = some p ∧ specWalk 20000 FED = some p :=
  c1_engine_is_spec_walk.1 FED 20000 (by norm_num [lastUnboundedB, FED]) (by norm_num)

/-- C5: for every nonempty schedule and every taxable income `≤ 0`, the
engine returns tax `0` and the bottom tier's rate as the marginal rate. -/
theorem c5_nonpositive_income (x : ℚ) (hx : x ≤ 0) (t : Tier) (rest : List Tier) :
    calculate_tax_for_bracket x (t :: rest) = some (0, t.rate) := by
  rw [calculate_tax_for_bracket, if_pos hx]

/-- C5 witness: income `-5` on the FED schedule yields `(0, 0.10)`. -/
theorem c5_nonpositive_income_witness :
    calculate_tax_for_bracket (-5)
      [⟨0.10, some 11925⟩, ⟨0.12, some 48475⟩, ⟨0.22, some 103350⟩,
       ⟨0.24, some 197300⟩, ⟨0.32, some 250525⟩, ⟨0.35, some 626350⟩,
       ⟨0.37, none⟩] = some (0, 0.10) :=
  c5_nonpositive_income (-5) (by norm_num) ⟨0.10, some 11925⟩
    [⟨0.12, some 48475⟩, ⟨0.22, some 103350⟩, ⟨0.24, some 197300⟩,
     ⟨0.32, some 250525⟩, ⟨0.35, some 626350⟩, ⟨0.37, none⟩]

/-- C6: for every schedule with non-negative rates, strictly increasing
upper bounds and an unbounded final tier, the returned tax amount is
monotone non-decreasing in the taxable income. -/
theorem c6_monotone (s : List Tier) (hr : ratesNonnegB s = true)
    (hc : chainB 0 s = true) (hlast : lastUnboundedB s = true)
    (x y : ℚ) (hxy : x ≤ y) :
    ∃ px py, calculate_tax_for_bracket x s = some px ∧
      calculate_tax_for_bracket y s = some py ∧ px.1 ≤ py.1 := by
  obtain ⟨px, hpx⟩ := calculate_tax_for_bracket_isSome x s hlast
  obtain ⟨py, hpy⟩ := calculate_tax_for_bracket_isSome y s hlast
  exact ⟨px, py, hpx, hpy,
    calculate_tax_for_bracket_mono s x y px py hr hc hxy hpx hpy⟩

/-- C6 witness: monotonicity applied to the FED schedule at incomes
11925 and 48475. -/
theorem c6_monotone_witness :
    ∃ px py, calculate_tax_for_bracket 11925 FED = some px ∧
      calculate_tax_for_bracket 48475 FED = some py ∧ px.1 ≤ py.1 :=
  c6_monotone FED (by norm_num [ratesNonnegB, FED]) (by norm_num [chainB, FED])
    (by norm_num [lastUnboundedB, FED]) 11925 48475 (by norm_num)

/-- C7: under the precondition that the schedule's final tier is
unbounded, the bracket walk terminates with a value for every taxable
income: the out-of-range (`KeyError`) branch, modelled by `none`, is
never reached.  (Termination itself is structural: `bracketLoop` is a
total function.) -/
theorem c7_walk_total (s : List Tier) (h : lastUnboundedB s = true) (x : ℚ) :
    ∃ p, calculate_tax_for_bracket x s = some p :=
  calculate_tax_for_bracket_isSome x s h

/-- C7 witness: the walk on the FED schedule at income 1000000 returns
a value. -/
theorem c7_walk_total_witness :
    ∃ p, calculate_tax_for_bracket 1000000 FED = some p :=
  c7_walk_total FED (by norm_num [lastUnboundedB, FED]) 1000000

/-- C9: on the shipped Social Security schedule, incomes 176100 and
250000 yield the identical tax amount `176100 × 0.062 = 10918.2`. -/
theorem c9_social_security_cap :
    calculate_tax_for_bracket 176100 socSec = some (10918.2, 0.062) ∧
    calculate_tax_for_bracket 250000 socSec = some (10918.2, 0) ∧
    (10918.2 : ℚ) = 176100 * 0.062 := by
  refine ⟨?_, ?_, by norm_num⟩ <;>
    norm_num [calculate_tax_for_bracket, bracketLoop, socSec]

/-- C2: for every valid input (income and deduction both non-negative)
the summary is assembled from the taxable base `max (income - deduction)
0` computed once; every per-type column of a successful summary comes
from running the Bracket Engine at that same single base; and when the
deduction exceeds the income the base is `0` and every row of the
summary — each tax type and the `ALL` aggregate — reports zero tax. -/
theorem c2_single_taxable_base :
    (∀ (income deduction : ℚ) (schedules : List (String × List Tier)),
      0 ≤ income → 0 ≤ deduction →
      calculate_tax income deduction schedules =
        (match mkRows (max (income - deduction) 0) income schedules with
         | none => Except.error TaxError.keyError
         | some rows => Except.ok rows)) ∧
    (∀ (income deduction : ℚ) (schedules : List (String × List Tier))
        (rows : List (String × FinalRow)),
      calculate_tax income deduction schedules = Except.ok rows →
      ∃ raw, rawRows (max (income - deduction) 0) income schedules = some raw ∧
        rows = (raw.map fun p => (p.1, finalizeRow p.2)) ++
          [("ALL", finalizeRow (sumRow (raw.map Prod.snd)))] ∧
        ∀ q ∈ raw, ∃ p, p ∈ schedules ∧
          computeRow (max (income - deduction) 0) income p.2 = some q.2) ∧
    (∀ (income deduction : ℚ) (schedules : List (String × List Tier))
        (rows : List (String × FinalRow)),
      calculate_tax income deduction schedules = Except.ok rows →
      income < deduction →
      mkRows 0 income schedules = some rows ∧ ∀ row ∈ rows, row.2.tax = 0) := by
  refine ⟨?_, ?_, ?_⟩
  · intro income deduction schedules h1 h2
    rw [calculate_tax, if_neg (not_lt.mpr h1), if_neg (not_lt.mpr h2)]
  · intro income deduction schedules rows hok
    obtain ⟨h1, h2, hmk⟩ := calculate_tax_ok income deduction schedules rows hok
    obtain ⟨raw, hraw, rfl⟩ :=
      mkRows_some (max (income - deduction) 0) income schedules _ hmk
    exact ⟨raw, hraw, rfl,
      rawRows_mem (max (income - deduction) 0) income schedules raw hraw⟩
  · intro income deduction schedules rows hok hd
    obtain ⟨h1, h2, hmk⟩ := calculate_tax_ok income deduction schedules rows hok
    have htax : max (income - deduction) 0 = 0 := max_eq_right (by linarith)
    rw [htax] at hmk
    refine ⟨hmk, ?_⟩
    obtain ⟨raw, hraw, rfl⟩ := mkRows_some 0 income schedules rows hmk
    have hzero : ∀ q ∈ raw, q.2.tax = 0 := by
      intro q hq
      obtain ⟨p, _, hp2⟩ := rawRows_mem 0 income schedules raw hraw q hq
      exact (computeRow_zero income p.2 q.2 hp2).1
    intro row hrow
    rcases List.mem_append.mp hrow with hmem | hmem
    · obtain ⟨q, hq, rfl⟩ := List.mem_map.mp hmem
      show truncToInt q.2.tax = 0
      rw [hzero q hq]
      exact truncToInt_zero
    · obtain rfl := List.mem_singleton.mp hmem
      show truncToInt (sumRow (raw.map Prod.snd)).tax = 0
      have hsum : (sumRow (raw.map Prod.snd)).tax = 0 := by
        rw [sumRow_tax]
        apply List.sum_eq_zero
        intro xt hxt
        rw [List.map_map] at hxt
        obtain ⟨q, hq, rfl⟩ := List.mem_map.mp hxt
        exact hzero q hq
      rw [hsum]
      exact truncToInt_zero

/-- C2 witness: the single-base equation applied at income 1 and
deduction 2 over the Medicare schedule alone, and the clamp consequence
at the same input: the base is 0 and both rows report zero tax. -/
theorem c2_single_taxable_base_witness :
    (calculate_tax 1 2 [("Med", med)] =
      (match mkRows (max ((1 : ℚ) - 2) 0) 1 [("Med", med)] with
       | none => Except.error TaxError.keyError
       | some rows => Except.ok rows)) ∧
    (mkRows 0 1 [("Med", med)] =
      some [("Med", ⟨0, 0, 0.0145, 0⟩), ("ALL", ⟨0, 0, 0.0145, 0⟩)] ∧
    ∀ row ∈ ([("Med", (⟨0, 0, 0.0145, 0⟩ : FinalRow)),
              ("ALL", (⟨0, 0, 0.0145, 0⟩ : FinalRow))] :
        List (String × FinalRow)), row.2.tax = 0) :=
  ⟨c2_single_taxable_base.1 1 2 [("Med", med)] (by norm_num) (by norm_num),
   c2_single_taxable_base.2.2 1 2 [("Med", med)]
    [("Med", ⟨0, 0, 0.0145, 0⟩), ("ALL", ⟨0, 0, 0.0145, 0⟩)]
    (by norm_num [calculate_tax, mkRows, rawRows, computeRow,
      calculate_tax_for_bracket, med, finalizeRow, sumRow, truncToInt])
    (by norm_num)⟩

/-- C3: with well-formed schedules (each nonempty with an unbounded
final tier), `calculate_tax` fails with an input-validation error
exactly when `income < 0` or `deduction < 0`, and on every other input
it returns a summary.  The embedding is pure: an error outcome carries
no summary and leaves the (immutable) schedule set untouched. -/
theorem c3_validation_iff (income deduction : ℚ)
    (schedules : List (String × List Tier))
    (hwf : ∀ p ∈ schedules, lastUnboundedB p.2 = true) :
    ((∃ msg, calculate_tax income deduction schedules =
        Except.error (TaxError.invalidInput msg)) ↔
      (income < 0 ∨ deduction < 0)) ∧
    (¬ (income < 0 ∨ deduction < 0) →
      ∃ rows, calculate_tax income deduction schedules = Except.ok rows) := by
  have hok : ∀ (h1 : ¬ income < 0) (h2 : ¬ deduction < 0),
      ∃ rows, calculate_tax income deduction schedules = Except.ok rows := by
    intro h1 h2
    obtain ⟨raw, hraw⟩ :=
      rawRows_isSome (max (income - deduction) 0) income schedules hwf
    refine ⟨(raw.map fun p => (p.1, finalizeRow p.2)) ++
      [("ALL", finalizeRow (sumRow (raw.map Prod.snd)))], ?_⟩
    rw [calculate_tax, if_neg h1, if_neg h2, mkRows, hraw, Option.map_some']
  constructor
  · constructor
    · rintro ⟨msg, hmsg⟩
      by_contra hneg
      push_neg at hneg
      obtain ⟨rows, hrows⟩ := hok (not_lt.mpr hneg.1) (not_lt.mpr hneg.2)
      rw [hmsg] at hrows
      exact absurd hrows (by simp)
    · intro h
      by_cases h1 : income < 0
      · exact ⟨"Income cannot be negative", by rw [calculate_tax, if_pos h1]⟩
      · have h2 : deduction < 0 := h.resolve_left h1
        exact ⟨"Deduction cannot be negative",
          by rw [calculate_tax, if_neg h1, if_pos h2]⟩
  · intro h
    push_neg at h
    exact hok (not_lt.mpr h.1) (not_lt.mpr h.2)

/-- C3 witness: the characterization applied to the shipped schedule set
at income `-1`, deduction `0`. -/
theorem c3_validation_iff_witness :
    ((∃ msg, calculate_tax (-1) 0 TAX_BRACKETS =
        Except.error (TaxError.invalidInput msg)) ↔
      ((-1 : ℚ) < 0 ∨ (0 : ℚ) < 0)) ∧
    (¬ ((-1 : ℚ) < 0 ∨ (0 : ℚ) < 0) →
      ∃ rows, calculate_tax (-1) 0 TAX_BRACKETS = Except.ok rows) :=
  c3_validation_iff (-1) 0 TAX_BRACKETS (by decide)

/-- C4: in a successful summary, the `ALL` row's four fields are the
column-wise sums of the per-type records; every `Tax` field, the
per-type ones and `ALL`'s, is the truncation (toward zero, not
rounding) of its amount while the three rate fields are kept unchanged;
and `ALL`'s tax is the truncation of the sum of the untruncated per-type
amounts — the code sums first and truncates afterwards. -/
theorem c4_all_row_sums (income deduction : ℚ)
    (schedules : List (String × List Tier)) (rows : List (String × FinalRow))
    (hok : calculate_tax income deduction schedules = Except.ok rows) :
    ∃ raw, rawRows (max (income - deduction) 0) income schedules = some raw ∧
      rows = (raw.map fun p => (p.1, finalizeRow p.2)) ++
        [("ALL", finalizeRow (sumRow (raw.map Prod.snd)))] ∧
      (sumRow (raw.map Prod.snd)).tax = ((raw.map Prod.snd).map Row.tax).sum ∧
      (sumRow (raw.map Prod.snd)).nominalRate =
        ((raw.map Prod.snd).map Row.nominalRate).sum ∧
      (sumRow (raw.map Prod.snd)).marginalRate =
        ((raw.map Prod.snd).map Row.marginalRate).sum ∧
      (sumRow (raw.map Prod.snd)).effectiveRate =
        ((raw.map Prod.snd).map Row.effectiveRate).sum ∧
      (finalizeRow (sumRow (raw.map Prod.snd))).tax =
        truncToInt (((raw.map Prod.snd).map Row.tax).sum) ∧
      ∀ q ∈ raw, (finalizeRow q.2).tax = truncToInt q.2.tax ∧
        (finalizeRow q.2).nominalRate = q.2.nominalRate ∧
        (finalizeRow q.2).marginalRate = q.2.marginalRate ∧
        (finalizeRow q.2).effectiveRate = q.2.effectiveRate := by
  obtain ⟨h1, h2, hmk⟩ := calculate_tax_ok income deduction schedules rows hok
  obtain ⟨raw, hraw, rfl⟩ :=
    mkRows_some (max (income - deduction) 0) income schedules _ hmk
  refine ⟨raw, hraw, rfl, sumRow_tax _, sumRow_nominal _, sumRow_marginal _,
    sumRow_effective _, ?_, fun q _ => ⟨rfl, rfl, rfl, rfl⟩⟩
  show truncToInt (sumRow (raw.map Prod.snd)).tax = _
  rw [sumRow_tax]

/-- C4 witness: the characterization applied to the Medicare schedule
alone at income 1 and deduction 0. -/
theorem c4_all_row_sums_witness :
    ∃ raw, rawRows (max ((1 : ℚ) - 0) 0) 1 [("Med", med)] = some raw ∧
      [("Med", (⟨0, 0.0145, 0.0145, 0.0145⟩ : FinalRow)),
       ("ALL", (⟨0, 0.0145, 0.0145, 0.0145⟩ : FinalRow))] =
        (raw.map fun p => (p.1, finalizeRow p.2)) ++
          [("ALL", finalizeRow (sumRow (raw.map Prod.snd)))] ∧
      (sumRow (raw.map Prod.snd)).tax = ((raw.map Prod.snd).map Row.tax).sum ∧
      (sumRow (raw.map Prod.snd)).nominalRate =
        ((raw.map Prod.snd).map Row.nominalRate).sum ∧
      (sumRow (raw.map Prod.snd)).marginalRate =
        ((raw.map Prod.snd).map Row.marginalRate).sum ∧
      (sumRow (raw.map Prod.snd)).effectiveRate =
        ((raw.map Prod.snd).map Row.effectiveRate).sum ∧
      (finalizeRow (sumRow (raw.map Prod.snd))).tax =
        truncToInt (((raw.map Prod.snd).map Row.tax).sum) ∧
      ∀ q ∈ raw, (finalizeRow q.2).tax = truncToInt q.2.tax ∧
        (finalizeRow q.2).nominalRate = q.2.nominalRate ∧
        (finalizeRow q.2).marginalRate = q.2.marginalRate ∧
        (finalizeRow q.2).effectiveRate = q.2.effectiveRate :=
  c4_all_row_sums 1 0 [("Med", med)]
    [("Med", ⟨0, 0.0145, 0.0145, 0.0145⟩), ("ALL", ⟨0, 0.0145, 0.0145, 0.0145⟩)]
    (by
      norm_num [calculate_tax, mkRows, rawRows, computeRow,
        calculate_tax_for_bracket, bracketLoop, med, finalizeRow, sumRow, truncToInt]
      decide)

/-- C8: each column's nominal rate is `tax / taxableIncome` when the
taxable income is positive and `0` otherwise, and its effective rate is
`tax / income` when the income is positive and `0` otherwise; in
particular `calculate_tax 0 0` over the shipped schedules returns (no
division error) a summary with zero tax in every row including `ALL`. -/
theorem c8_rate_guards :
    (∀ (taxable income : ℚ) (b : List Tier) (r : Row),
      computeRow taxable income b = some r →
      r.nominalRate = (if taxable > 0 then r.tax / taxable else 0) ∧
      r.effectiveRate = (if income > 0 then r.tax / income else 0)) ∧
    calculate_tax 0 0 TAX_BRACKETS = Except.ok
      [("FED", ⟨0, 0, 0.10, 0⟩), ("NY", ⟨0, 0, 0.04, 0⟩),
       ("NYC", ⟨0, 0, 0.03078, 0⟩), ("Soc Sec", ⟨0, 0, 0.062, 0⟩),
       ("Med", ⟨0, 0, 0.0145, 0⟩), ("ALL", ⟨0, 0, 0.24728, 0⟩)] ∧
    ∀ row ∈ ([("FED", ⟨0, 0, 0.10, 0⟩), ("NY", ⟨0, 0, 0.04, 0⟩),
       ("NYC", ⟨0, 0, 0.03078, 0⟩), ("Soc Sec", ⟨0, 0, 0.062, 0⟩),
       ("Med", ⟨0, 0, 0.0145, 0⟩), ("ALL", ⟨0, 0, 0.24728, 0⟩)] :
        List (String × FinalRow)), row.2.tax = 0 := by
  refine ⟨?_, ?_, by decide⟩
  · intro taxable income b r h
    exact ⟨(computeRow_some taxable income b r h).2.1,
      (computeRow_some taxable income b r h).2.2⟩
  · norm_num [calculate_tax, mkRows, rawRows, computeRow,
      calculate_tax_for_bracket, TAX_BRACKETS, FED, NY, NYC, socSec, med,
      finalizeRow, sumRow, truncToInt]

/-- C8 witness: the rate guards applied to the Medicare column at
taxable income 1 and income 1. -/
theorem c8_rate_guards_witness :
    ((⟨0.0145, 0.0145, 0.0145, 0.0145⟩ : Row).nominalRate =
      (if (1 : ℚ) > 0 then (⟨0.0145, 0.0145, 0.0145, 0.0145⟩ : Row).tax / 1 else 0)) ∧
    ((⟨0.0145, 0.0145, 0.0145, 0.0145⟩ : Row).effectiveRate =
      (if (1 : ℚ) > 0 then (⟨0.0145, 0.0145, 0.0145, 0.0145⟩ : Row).tax / 1 else 0)) :=
  c8_rate_guards.1 1 1 med ⟨0.0145, 0.0145, 0.0145, 0.0145⟩
    (by norm_num [computeRow, calculate_tax_for_bracket, bracketLoop, med])

/-- C10 (implicit): for every schedule with rates in `[0, 1]`, strictly
increasing upper bounds and an unbounded final tier, the engine's tax
lies between `0` and `max taxableIncome 0`; consequently every per-type
nominal and effective rate of a successful summary lies in `[0, 1]`. -/
theorem c10_tax_and_rate_bounds :
    (∀ (s : List Tier) (x : ℚ), ratesNonnegB s = true → ratesLeOneB s = true →
      chainB 0 s = true → lastUnboundedB s = true →
      ∃ p, calculate_tax_for_bracket x s = some p ∧ 0 ≤ p.1 ∧ p.1 ≤ max x 0) ∧
    (∀ (income deduction : ℚ) (schedules : List (String × List Tier))
        (rows : List (String × FinalRow)),
      (∀ q ∈ schedules, ratesNonnegB q.2 = true ∧ ratesLeOneB q.2 = true ∧
        chainB 0 q.2 = true) →
      calculate_tax income deduction schedules = Except.ok rows →
      ∀ row ∈ rows.dropLast,
        (0 ≤ row.2.nominalRate ∧ row.2.nominalRate ≤ 1) ∧
        (0 ≤ row.2.effectiveRate ∧ row.2.effectiveRate ≤ 1)) := by
  constructor
  · intro s x hr hr1 hc hlast
    obtain ⟨p, hp⟩ := calculate_tax_for_bracket_isSome x s hlast
    exact ⟨p, hp, calculate_tax_for_bracket_nonneg x s p hr hc hp,
      calculate_tax_for_bracket_le x s p hr1 hc hp⟩
  · intro income deduction schedules rows hwf hok row hrow
    obtain ⟨h1, h2, hmk⟩ := calculate_tax_ok income deduction schedules rows hok
    obtain ⟨raw, hraw, rfl⟩ :=
      mkRows_some (max (income - deduction) 0) income schedules _ hmk
    rw [List.dropLast_concat] at hrow
    obtain ⟨q, hq, rfl⟩ := List.mem_map.mp hrow
    obtain ⟨p, hps, hpc⟩ :=
      rawRows_mem (max (income - deduction) 0) income schedules raw hraw q hq
    obtain ⟨hcb, hnom, heff⟩ :=
      computeRow_some (max (income - deduction) 0) income p.2 q.2 hpc
    obtain ⟨hwr, hwr1, hwc⟩ := hwf p hps
    have h0 : 0 ≤ q.2.tax :=
      calculate_tax_for_bracket_nonneg (max (income - deduction) 0) p.2
        (q.2.tax, q.2.marginalRate) hwr hwc hcb
    have hmax : 0 ≤ max (income - deduction) 0 := le_max_right _ _
    have hle : q.2.tax ≤ max (income - deduction) 0 := by
      have := calculate_tax_for_bracket_le (max (income - deduction) 0) p.2
        (q.2.tax, q.2.marginalRate) hwr1 hwc hcb
      rwa [max_eq_left hmax] at this
    have hded : 0 ≤ deduction := not_lt.mp h2
    have hinc : 0 ≤ income := not_lt.mp h1
    have hti : max (income - deduction) 0 ≤ income :=
      max_le (by linarith) hinc
    constructor
    · show 0 ≤ q.2.nominalRate ∧ q.2.nominalRate ≤ 1
      rw [hnom]
      by_cases ht : max (income - deduction) 0 > 0
      · rw [if_pos ht]
        exact ⟨div_nonneg h0 (le_of_lt ht), (div_le_one ht).mpr hle⟩
      · rw [if_neg ht]
        norm_num
    · show 0 ≤ q.2.effectiveRate ∧ q.2.effectiveRate ≤ 1
      rw [heff]
      by_cases hi : income > 0
      · rw [if_pos hi]
        exact ⟨div_nonneg h0 (le_of_lt hi),
          (div_le_one hi).mpr (le_trans hle hti)⟩
      · rw [if_neg hi]
        norm_num

/-- C10 witness: the tax bounds applied to the Social Security schedule
at taxable income 100. -/
theorem c10_tax_and_rate_bounds_witness :
    ∃ p, calculate_tax_for_bracket 100 socSec = some p ∧
      0 ≤ p.1 ∧ p.1 ≤ max 100 0 :=
  c10_tax_and_rate_bounds.1 socSec 100 (by norm_num [ratesNonnegB, socSec])
    (by norm_num [ratesLeOneB, socSec]) (by decide) (by decide)
